import Mathlib

/-!
Shallow embedding of `src/licenses.ts` (Psutka/license-builder), a dependency
reporter: manifest reading, per-package registry fetch (modelled as an oracle),
a naive dotted-version comparator, report aggregation and markdown rendering.
JavaScript semantics that matter are modelled explicitly: `Number` on a version
component yields NaN on non-numeric input (modelled as `none`), `x || 0`
coerces NaN and `undefined` to 0, and `s || 'default'` treats the empty string
as falsy.
-/

namespace Licenses

/-- JS `String.prototype.trim` / the whitespace trimming `Number` performs,
on the character-list view of a string. -/
def trimChars (cs : List Char) : List Char :=
  ((cs.dropWhile Char.isWhitespace).reverse.dropWhile Char.isWhitespace).reverse

/-- JS `s.split('.')` on the character-list view: splits into the (possibly
empty) groups between `'.'` separators; the empty string yields `[[]]`. -/
def splitCharsOnDot : List Char → List (List Char)
  | [] => [[]]
  | c :: cs =>
    if c = '.' then [] :: splitCharsOnDot cs
    else
      match splitCharsOnDot cs with
      | [] => [[c]]
      | g :: gs => (c :: g) :: gs

/-- Value of a list of decimal digits. -/
def digitsVal (cs : List Char) : Nat :=
  cs.foldl (fun n c => n * 10 + (c.toNat - '0'.toNat)) 0

/-- JS `Number(component)` for a version component (a string not containing
`'.'`): whitespace is trimmed, the empty string is 0, an optional sign
followed by decimal digits is that integer, and anything else is NaN,
modelled as `none`.  (Exotic JS numeric literal forms — hex, exponents,
`Infinity` — do not occur in dotted version components and are modelled
as NaN.) -/
def jsNumberChars (cs : List Char) : Option Int :=
  match trimChars cs with
  | [] => some 0
  | '-' :: rest =>
    if rest ≠ [] ∧ rest.all Char.isDigit then some (-(digitsVal rest : Int)) else none
  | '+' :: rest =>
    if rest ≠ [] ∧ rest.all Char.isDigit then some ((digitsVal rest : Int)) else none
  | cs' =>
    if cs'.all Char.isDigit then some ((digitsVal cs' : Int)) else none

/-- JS `x || 0` applied to a possibly-NaN number: NaN is falsy and becomes 0
(`0 || 0` is also 0, so a plain `getD` is exact). -/
def jsOr0 (x : Option Int) : Int :=
  x.getD 0

/-- JS `parts[i] || 0`: out-of-range access yields `undefined`, and both
`undefined` and NaN are coerced to 0. -/
def partAt (ps : List (Option Int)) (i : Nat) : Int :=
  ((ps.get? i).bind id).getD 0

/-- The `for` loop of `_isVersionOutdated` (licenses.ts lines 225–236), with
the remaining iteration count made explicit as fuel: at index `i` it compares
`installedParts[i] || 0` with `latestParts[i] || 0`, returns `true` on the
first strictly smaller installed component, `false` on the first strictly
larger one, and `false` when the loop ends. -/
def loopFuel (ips lps : List (Option Int)) : Nat → Nat → Bool
  | _, 0 => false
  | i, n + 1 =>
    if partAt ips i < partAt lps i then true
    else if partAt ips i > partAt lps i then false
    else loopFuel ips lps (i + 1) n

/-- `_isVersionOutdated` (licenses.ts lines 219–242): split both strings on
`'.'`, map `Number` over the components, and run the comparison loop for
`Math.max(installedParts.length, latestParts.length)` iterations.  Nothing in
the body can throw (`Number` returns NaN instead of throwing and array reads
return `undefined`), so the `catch` branch is unreachable and is not
modelled. -/
def _isVersionOutdated (installed latest : String) : Bool :=
  let ips := (splitCharsOnDot installed.data).map jsNumberChars
  let lps := (splitCharsOnDot latest.data).map jsNumberChars
  loopFuel ips lps 0 (max ips.length lps.length)

/-- The range-operator characters of the regex `/^[\^~>=<]/` in
`_cleanVersion`. -/
def rangeOps : List Char := ['^', '~', '>', '=', '<']

/-- `version.replace(/^[\^~>=<]/, '')`: removes one leading range-operator
character, if present. -/
def stripLeadingOp : List Char → List Char
  | [] => []
  | c :: cs => if c ∈ rangeOps then cs else c :: cs

/-- `_cleanVersion` (licenses.ts lines 214–217): strip a single leading range
operator, then trim whitespace. -/
def _cleanVersion (v : String) : String :=
  String.mk (trimChars (stripLeadingOp v.data))

/-- Tail of the specification-side comparator once the installed components
are exhausted: each remaining latest component is compared with 0. -/
def specCompareNil : List Int → Bool
  | [] => false
  | b :: bs => if (0 : Int) < b then true else if b < 0 then false else specCompareNil bs

/-- Specification-side comparator, written from the spec's words (§4.3):
compare integer component lists pairwise left-to-right, a missing trailing
component counting as 0; `true` at the first position where installed <
latest, `false` at the first position where installed > latest, `false` when
all compared components are equal. -/
def specCompare : List Int → List Int → Bool
  | [], ys => specCompareNil ys
  | a :: xs, [] =>
    if a < 0 then true else if 0 < a then false else specCompare xs []
  | a :: xs, b :: bs =>
    if a < b then true else if b < a then false else specCompare xs bs

/-- All components are 0. -/
def allZero : List Int → Bool
  | [] => true
  | b :: bs => b == 0 && allZero bs

/-- Component-wise equality of integer lists with missing trailing components
defaulting to 0. -/
def zeroPadEq : List Int → List Int → Bool
  | [], ys => allZero ys
  | a :: xs, [] => a == 0 && zeroPadEq xs []
  | a :: xs, b :: bs => a == b && zeroPadEq xs bs

/-- The integer component list a version string is compared by: split on
`'.'`, apply `Number`, coerce NaN to 0. -/
def versionParts (v : String) : List Int :=
  ((splitCharsOnDot v.data).map jsNumberChars).map jsOr0

theorem partAt_nil (i : Nat) : partAt [] i = 0 := rfl

theorem partAt_cons_zero (x : Option Int) (xs : List (Option Int)) :
    partAt (x :: xs) 0 = jsOr0 x := rfl

theorem partAt_tail (ps : List (Option Int)) (i : Nat) :
    partAt ps.tail i = partAt ps (i + 1) := by
  cases ps <;> rfl

theorem loopFuel_shift (n : Nat) : ∀ (ips lps : List (Option Int)) (j : Nat),
    loopFuel ips lps (j + 1) n = loopFuel ips.tail lps.tail j n := by
  induction n with
  | zero => intro ips lps j; rfl
  | succ n ih =>
    intro ips lps j
    simp only [loopFuel, partAt_tail, ih]

theorem loopFuel_nil_left : ∀ ls : List (Option Int),
    loopFuel [] ls 0 ls.length = specCompareNil (ls.map jsOr0) := by
  intro ls
  induction ls with
  | nil => rfl
  | cons l ls ih =>
    simp only [List.length_cons, List.map_cons, loopFuel, specCompareNil,
      partAt_nil, partAt_cons_zero, gt_iff_lt]
    rw [loopFuel_shift]
    simp only [List.tail_nil, List.tail_cons]
    rw [ih]

theorem loopFuel_nil_right : ∀ xs : List (Option Int),
    loopFuel xs [] 0 xs.length = specCompare (xs.map jsOr0) [] := by
  intro xs
  induction xs with
  | nil => rfl
  | cons x xs ih =>
    simp only [List.length_cons, List.map_cons, loopFuel, specCompare,
      partAt_nil, partAt_cons_zero, gt_iff_lt]
    rw [loopFuel_shift]
    simp only [List.tail_nil, List.tail_cons]
    rw [ih]

theorem loopFuel_eq_specCompare : ∀ ips lps : List (Option Int),
    loopFuel ips lps 0 (max ips.length lps.length)
      = specCompare (ips.map jsOr0) (lps.map jsOr0) := by
  intro ips
  induction ips with
  | nil =>
    intro lps
    simp only [List.length_nil, Nat.zero_max, List.map_nil, specCompare]
    exact loopFuel_nil_left lps
  | cons i is_ ih =>
    intro lps
    cases lps with
    | nil =>
      simp only [List.length_nil, Nat.max_zero, List.map_nil]
      exact loopFuel_nil_right (i :: is_)
    | cons l ls =>
      simp only [List.length_cons, Nat.succ_max_succ, List.map_cons, loopFuel,
        specCompare, partAt_cons_zero, gt_iff_lt]
      rw [loopFuel_shift]
      simp only [List.tail_cons]
      rw [ih ls]

theorem isOutdated_eq_specCompare (installed latest : String) :
    _isVersionOutdated installed latest
      = specCompare (versionParts installed) (versionParts latest) :=
  loopFuel_eq_specCompare _ _

theorem specCompareNil_eq_false_of_allZero : ∀ ys : List Int,
    allZero ys = true → specCompareNil ys = false := by
  intro ys
  induction ys with
  | nil => intro _; rfl
  | cons b bs ih =>
    intro h
    simp only [allZero, Bool.and_eq_true, beq_iff_eq] at h
    obtain ⟨hb, hrest⟩ := h
    subst hb
    simpa [specCompareNil] using ih hrest

theorem specCompare_eq_false_of_zeroPadEq : ∀ xs ys : List Int,
    zeroPadEq xs ys = true → specCompare xs ys = false := by
  intro xs
  induction xs with
  | nil =>
    intro ys h
    exact specCompareNil_eq_false_of_allZero ys h
  | cons a xs ih =>
    intro ys h
    cases ys with
    | nil =>
      simp only [zeroPadEq, Bool.and_eq_true, beq_iff_eq] at h
      obtain ⟨ha, hrest⟩ := h
      subst ha
      simpa [specCompare] using ih [] hrest
    | cons b bs =>
      simp only [zeroPadEq, Bool.and_eq_true, beq_iff_eq] at h
      obtain ⟨hab, hrest⟩ := h
      subst hab
      simpa [specCompare] using ih bs hrest

/-- C1: when every dot-separated component of both version strings parses as
an integer (`xs`, `ys` being the parsed components), `_isVersionOutdated`
splits both strings on `'.'` and compares the components pairwise as integers
left-to-right with missing trailing components treated as 0: it returns true
at the first position where the installed component is less than the latest
component, false at the first position where it is greater, and false when
all compared components are equal — i.e. it agrees with the specification
comparator `specCompare`. -/
theorem c1_componentwise_integer_comparison (installed latest : String)
    (xs ys : List Int)
    (h1 : (splitCharsOnDot installed.data).map jsNumberChars = xs.map some)
    (h2 : (splitCharsOnDot latest.data).map jsNumberChars = ys.map some) :
    _isVersionOutdated installed latest = specCompare xs ys := by
  rw [isOutdated_eq_specCompare]
  unfold versionParts
  rw [h1, h2]
  have h3 : ∀ zs : List Int, (zs.map some).map jsOr0 = zs := by
    intro zs
    induction zs with
    | nil => rfl
    | cons z zs ih => simp only [List.map_cons, ih]; rfl
  rw [h3, h3]

/-- Witness for C1 at the spec's own examples: "1.9.0" vs "1.10.0" is
outdated, "2.0.0" vs "1.99.9" is not. -/
theorem c1_witness :
    _isVersionOutdated "1.9.0" "1.10.0" = true
      ∧ _isVersionOutdated "2.0.0" "1.99.9" = false :=
  ⟨(c1_componentwise_integer_comparison "1.9.0" "1.10.0" [1, 9, 0] [1, 10, 0]
      (by decide) (by decide)).trans (by decide),
   (c1_componentwise_integer_comparison "2.0.0" "1.99.9" [2, 0, 0] [1, 99, 9]
      (by decide) (by decide)).trans (by decide)⟩

/-- C2 is false as stated: "1.x" has the non-numeric component "x"
(`Number` yields NaN, modelled `none`), yet `_isVersionOutdated "1.x" "1.5"`
returns `true`, not `false` — `NaN || 0` coerces the component to 0 and the
comparison proceeds. -/
theorem c2_counterexample :
    jsNumberChars ("x" : String).data = none
      ∧ _isVersionOutdated "1.x" "1.5" = true := by
  decide

/-- C2 (amended): the comparator is total and never raises, but a
non-numeric component does not force a `false` result; instead every
component that fails to parse is coerced to 0 (JS `NaN || 0`), and the
comparison is exactly the pairwise integer comparison `specCompare` over the
coerced components.  (The `catch` branch of the source is unreachable:
nothing in the body throws.) -/
theorem c2_amended_nan_coerced_to_zero (installed latest : String) :
    _isVersionOutdated installed latest
      = specCompare (versionParts installed) (versionParts latest) :=
  isOutdated_eq_specCompare installed latest

/-- C7: an installed version string beginning with exactly one range-operator
character from `^ ~ > = <` (so the bare remainder does not itself begin with
one, expressed as `stripLeadingOp` fixing it) compares identically to the
bare version: the single leading operator is stripped by `_cleanVersion`
before comparison. -/
theorem c7_leading_range_op_stripped (v bare latest : String) (c : Char)
    (hv : v.data = c :: bare.data) (hc : c ∈ rangeOps)
    (hbare : stripLeadingOp bare.data = bare.data) :
    _isVersionOutdated (_cleanVersion v) latest
      = _isVersionOutdated (_cleanVersion bare) latest := by
  unfold _cleanVersion
  rw [hv, hbare]
  simp only [stripLeadingOp]
  rw [if_pos hc]

/-- Witness for C7 at the spec's example: "^4.0.0" vs "4.20.5" compares like
"4.0.0" vs "4.20.5", and is outdated. -/
theorem c7_witness :
    _isVersionOutdated (_cleanVersion "^4.0.0") "4.20.5"
        = _isVersionOutdated (_cleanVersion "4.0.0") "4.20.5"
      ∧ _isVersionOutdated (_cleanVersion "^4.0.0") "4.20.5" = true :=
  ⟨c7_leading_range_op_stripped "^4.0.0" "4.0.0" "4.20.5" '^'
      (by decide) (by decide) (by decide),
   by decide⟩

/-- C8: `_isVersionOutdated` is reflexive-false — whenever the two component
lists are equal component-wise with missing trailing components defaulting
to 0, it returns false. -/
theorem c8_reflexive_false (installed latest : String)
    (h : zeroPadEq (versionParts installed) (versionParts latest) = true) :
    _isVersionOutdated installed latest = false := by
  rw [isOutdated_eq_specCompare]
  exact specCompare_eq_false_of_zeroPadEq _ _ h

/-- Witness for C8 at the spec's examples: "1.2.3" vs "1.2.3" and
"1.2" vs "1.2.0" are both not outdated. -/
theorem c8_witness :
    _isVersionOutdated "1.2.3" "1.2.3" = false
      ∧ _isVersionOutdated "1.2" "1.2.0" = false :=
  ⟨c8_reflexive_false "1.2.3" "1.2.3" (by decide),
   c8_reflexive_false "1.2" "1.2.0" (by decide)⟩

/-- The three dependency categories of the manifest. -/
inductive DepType where
  | dependency
  | devDependency
  | peerDependency
deriving DecidableEq

/-- One extracted manifest entry (`{name, version, type}` in
`_extractDependencies`). -/
structure DepEntry where
  name : String
  version : String
  type : DepType
deriving DecidableEq

/-- `PackageJson`: the three optional dependency maps.  A JS
`Record<string, string>` is modelled as an association list in insertion
order. -/
structure PackageJson where
  dependencies : Option (List (String × String))
  devDependencies : Option (List (String × String))
  peerDependencies : Option (List (String × String))
deriving DecidableEq

/-- `repository` field of the registry metadata. -/
structure RepoInfo where
  type : String
  url : String
deriving DecidableEq

/-- `author` field: either a plain string or an object with a name. -/
inductive JsAuthor where
  | str (s : String)
  | obj (name : String) (email : Option String)
deriving DecidableEq

/-- `time` field of the registry metadata. -/
structure TimeInfo where
  created : String
  modified : String
deriving DecidableEq

/-- `NpmPackageInfo`: the registry response shape the analyzer reads. -/
structure NpmPackageInfo where
  name : String
  version : String
  description : Option String
  homepage : Option String
  repository : Option RepoInfo
  license : Option String
  author : Option JsAuthor
  keywords : Option (List String)
  maintainers : Option (List (String × String))
  time : Option TimeInfo
  downloads : Option Nat
  size : Option Nat
deriving DecidableEq

/-- `PackageAnalysis`: one analyzed dependency. -/
structure PackageAnalysis where
  name : String
  installedVersion : String
  latestVersion : String
  description : String
  license : String
  author : String
  homepage : String
  repository : String
  keywords : List String
  maintainers : Nat
  created : String
  lastModified : String
  isOutdated : Bool
  securityIssues : Option (List String)
  dependencyType : DepType
deriving DecidableEq

/-- One entry of the `topMaintainers` list. -/
structure TopMaintainer where
  name : String
  packages : Nat
deriving DecidableEq

/-- `AnalysisReport`: the aggregate report.  `licenseDistribution` is a JS
object used as a counter map, modelled as an association list in key
insertion order. -/
structure AnalysisReport where
  totalPackages : Nat
  outdatedPackages : Nat
  packagesWithSecurityIssues : Nat
  licenseDistribution : List (String × Nat)
  topMaintainers : List TopMaintainer
  packages : List PackageAnalysis
deriving DecidableEq

/-- JS `x || d` for an optional string: `undefined` and the empty string are
falsy. -/
def jsOrString (x : Option String) (d : String) : String :=
  match x with
  | none => d
  | some s => if s = "" then d else s

/-- `_formatAuthor` (lines 244–254): `undefined` and the empty-string author
are falsy and become "unknown"; a string author is returned as is; an object
author contributes its `name`. -/
def _formatAuthor (author : Option JsAuthor) : String :=
  match author with
  | none => "unknown"
  | some (.str s) => if s = "" then "unknown" else s
  | some (.obj name _) => name

/-- `_formatRepository` (lines 256–262): missing repository is `""`;
otherwise `repo.url || ''`, which is the identity on strings. -/
def _formatRepository (repo : Option RepoInfo) : String :=
  match repo with
  | none => ""
  | some r => r.url

/-- The pure part of `_analyzePackage` (lines 164–194), with the already
fetched registry record as an argument (the fetch itself is the oracle in
`analyzeLoop`): derives `isOutdated` from the cleaned installed version and
the latest version, and fills the `PackageAnalysis` fields with the JS
`|| default` fallbacks. -/
def _analyzePackage (name installedVersion : String) (type : DepType)
    (packageInfo : NpmPackageInfo) : PackageAnalysis :=
  let latestVersion := packageInfo.version
  let cleanInstalled := _cleanVersion installedVersion
  let isOutdated := _isVersionOutdated cleanInstalled latestVersion
  { name := name
    installedVersion := installedVersion
    latestVersion := latestVersion
    description := jsOrString packageInfo.description ""
    license := jsOrString packageInfo.license "unknown"
    author := _formatAuthor packageInfo.author
    homepage := jsOrString packageInfo.homepage ""
    repository := _formatRepository packageInfo.repository
    keywords := packageInfo.keywords.getD []
    maintainers := (packageInfo.maintainers.map List.length).getD 0
    created := (packageInfo.time.map TimeInfo.created).getD ""
    lastModified := (packageInfo.time.map TimeInfo.modified).getD ""
    isOutdated := isOutdated
    securityIssues := none
    dependencyType := type }

/-- The minimal placeholder entry pushed by the `catch` block of
`analyzePackageJson` (lines 97–113) when the fetch for a dependency fails. -/
def failedAnalysis (dep : DepEntry) : PackageAnalysis :=
  { name := dep.name
    installedVersion := dep.version
    latestVersion := "unknown"
    description := "Failed to fetch information"
    license := "unknown"
    author := "unknown"
    homepage := ""
    repository := ""
    keywords := []
    maintainers := 0
    created := ""
    lastModified := ""
    isOutdated := false
    securityIssues := none
    dependencyType := dep.type }

/-- `_extractDependencies` (lines 129–162): concatenate the three dependency
groups, in the fixed order regular / dev / peer, each in map insertion
order. -/
def _extractDependencies (packageJson : PackageJson) : List DepEntry :=
  (packageJson.dependencies.getD []).map (fun e => ⟨e.1, e.2, .dependency⟩)
    ++ (packageJson.devDependencies.getD []).map (fun e => ⟨e.1, e.2, .devDependency⟩)
    ++ (packageJson.peerDependencies.getD []).map (fun e => ⟨e.1, e.2, .peerDependency⟩)

/-- One iteration of the per-dependency loop of `analyzePackageJson`
(lines 80–115): the registry fetch is modelled as an oracle
`fetch : String → Option NpmPackageInfo`, `none` standing for a thrown
fetch error; on failure the `catch` block yields the placeholder entry. -/
def analyzeOne (fetch : String → Option NpmPackageInfo) (dep : DepEntry) :
    PackageAnalysis :=
  match fetch dep.name with
  | some info => _analyzePackage dep.name dep.version dep.type info
  | none => failedAnalysis dep

/-- The per-dependency loop of `analyzePackageJson` (lines 80–115): one entry
pushed per dependency, in manifest iteration order; a failure is recovered by
the placeholder entry and the loop continues with the next dependency.  The
rate-limiting sleeps have no effect on the collected list and are not
modelled. -/
def analyzeLoop (fetch : String → Option NpmPackageInfo) :
    List DepEntry → List PackageAnalysis
  | [] => []
  | dep :: deps => analyzeOne fetch dep :: analyzeLoop fetch deps

/-- `counts[k] = (counts[k] || 0) + 1` on a JS object used as a counter map:
an existing key is incremented in place, a new key is appended (JS objects
enumerate string keys in insertion order). -/
def bump : List (String × Nat) → String → List (String × Nat)
  | [], k => [(k, 1)]
  | (k', v) :: rest, k =>
    if k' = k then (k', v + 1) :: rest else (k', v) :: bump rest k

/-- Stable insertion of `x` into `l`: `x` passes over exactly the elements
`y` with `lt y x` and lands before the first other one, so comparator-equal
elements keep their original relative order. -/
def insertStable {α : Type} (lt : α → α → Bool) (x : α) : List α → List α
  | [] => [x]
  | y :: ys => if lt y x then y :: insertStable lt x ys else x :: y :: ys

/-- Stable sort by the strict comparator `lt` (insertion sort): the model of
JS `Array.prototype.sort`, which is stable, under a consistent comparator. -/
def sortStable {α : Type} (lt : α → α → Bool) : List α → List α
  | [] => []
  | x :: xs => insertStable lt x (sortStable lt xs)

/-- The comparator `([, a], [, b]) => b - a` used on counter-map entries:
`a` strictly precedes `b` when `a`'s count is larger. -/
def countDescLt (a b : String × Nat) : Bool :=
  decide (b.2 < a.2)

/-- The `licenseDistribution` accumulation of `_generateReport`
(lines 269–273): one `bump` per package, keyed by `pkg.license || 'unknown'`
(the empty string is falsy). -/
def licenseDistributionOf (pkgs : List PackageAnalysis) : List (String × Nat) :=
  pkgs.foldl
    (fun m pkg => bump m (if pkg.license = "" then "unknown" else pkg.license)) []

/-- The `maintainerCount` accumulation of `_generateReport` (lines 276–281):
one `bump` per package whose author is truthy (non-empty) and not
"unknown". -/
def maintainerCountOf (pkgs : List PackageAnalysis) : List (String × Nat) :=
  pkgs.foldl
    (fun m pkg =>
      if pkg.author ≠ "" ∧ pkg.author ≠ "unknown" then bump m pkg.author else m) []

/-- `Object.entries(maintainerCount).sort(([, a], [, b]) => b - a).slice(0, 10)`
(lines 283–285): entries in insertion order, stably sorted descending by
count, first 10 taken. -/
def topPairsOf (pkgs : List PackageAnalysis) : List (String × Nat) :=
  (sortStable countDescLt (maintainerCountOf pkgs)).take 10

/-- `_generateReport` (lines 264–296): totals, outdated count, license
histogram, and the top-10 maintainers sorted descending by count. -/
def _generateReport (pkgs : List PackageAnalysis) : AnalysisReport :=
  { totalPackages := pkgs.length
    outdatedPackages := (pkgs.filter (fun p => p.isOutdated)).length
    packagesWithSecurityIssues := 0
    licenseDistribution := licenseDistributionOf pkgs
    topMaintainers := (topPairsOf pkgs).map (fun e => TopMaintainer.mk e.1 e.2)
    packages := pkgs }

/-- `analyzePackageJson` (lines 65–118) after a successfully parsed manifest
(`_readPackageJson` failure is fatal and aborts before any report exists):
extract the dependencies, run the per-dependency loop, and generate the
report from the collected list. -/
def analyzePackageJson (fetch : String → Option NpmPackageInfo)
    (packageJson : PackageJson) : AnalysisReport :=
  _generateReport (analyzeLoop fetch (_extractDependencies packageJson))

theorem analyzeLoop_length (fetch : String → Option NpmPackageInfo) :
    ∀ deps : List DepEntry, (analyzeLoop fetch deps).length = deps.length := by
  intro deps
  induction deps with
  | nil => rfl
  | cons dep deps ih => simp only [analyzeLoop, List.length_cons, ih]

theorem analyzeLoop_get? (fetch : String → Option NpmPackageInfo) :
    ∀ (deps : List DepEntry) (i : Nat),
      (analyzeLoop fetch deps).get? i = (deps.get? i).map (analyzeOne fetch) := by
  intro deps
  induction deps with
  | nil => intro i; rfl
  | cons dep deps ih =>
    intro i
    cases i with
    | zero => rfl
    | succ i => exact ih i

/-- C3: a fetch failure for one dependency does not abort processing — the
loop still yields one entry per dependency — and the failed dependency's
entry is the placeholder with latestVersion "unknown", license "unknown",
author "unknown" and isOutdated false. -/
theorem c3_fetch_failure_recovered (fetch : String → Option NpmPackageInfo)
    (deps : List DepEntry) :
    (analyzeLoop fetch deps).length = deps.length
      ∧ ∀ (i : Nat) (dep : DepEntry),
          deps.get? i = some dep → fetch dep.name = none →
          ∃ entry : PackageAnalysis,
            (analyzeLoop fetch deps).get? i = some entry
              ∧ entry.latestVersion = "unknown"
              ∧ entry.license = "unknown"
              ∧ entry.author = "unknown"
              ∧ entry.isOutdated = false := by
  refine ⟨analyzeLoop_length fetch deps, ?_⟩
  intro i dep hget hfail
  refine ⟨failedAnalysis dep, ?_, rfl, rfl, rfl, rfl⟩
  rw [analyzeLoop_get? fetch deps i, hget]
  show some (analyzeOne fetch dep) = some (failedAnalysis dep)
  unfold analyzeOne
  rw [hfail]

/-- Witness for C3: a one-dependency manifest whose fetch always fails. -/
theorem c3_witness :
    (analyzeLoop (fun _ => none) [⟨"left-pad", "^1.0.0", DepType.dependency⟩]).length = 1
      ∧ ∃ entry : PackageAnalysis,
          (analyzeLoop (fun _ => none)
              [⟨"left-pad", "^1.0.0", DepType.dependency⟩]).get? 0 = some entry
            ∧ entry.latestVersion = "unknown"
            ∧ entry.license = "unknown"
            ∧ entry.author = "unknown"
            ∧ entry.isOutdated = false :=
  ⟨(c3_fetch_failure_recovered (fun _ => none)
      [⟨"left-pad", "^1.0.0", DepType.dependency⟩]).1,
   (c3_fetch_failure_recovered (fun _ => none)
      [⟨"left-pad", "^1.0.0", DepType.dependency⟩]).2 0
      ⟨"left-pad", "^1.0.0", DepType.dependency⟩ rfl rfl⟩

/-- C4: the report's totalPackages equals the number of manifest entries
processed (successes plus failures), which is the length of the collected
package list, with one entry per dependency in manifest iteration order
(names align index by index). -/
theorem c4_total_count (fetch : String → Option NpmPackageInfo)
    (packageJson : PackageJson) :
    (analyzePackageJson fetch packageJson).totalPackages
        = (_extractDependencies packageJson).length
      ∧ (analyzePackageJson fetch packageJson).packages.length
          = (_extractDependencies packageJson).length
      ∧ ∀ (i : Nat) (dep : DepEntry),
          (_extractDependencies packageJson).get? i = some dep →
          ∃ entry : PackageAnalysis,
            (analyzePackageJson fetch packageJson).packages.get? i = some entry
              ∧ entry.name = dep.name := by
  refine ⟨analyzeLoop_length fetch _, analyzeLoop_length fetch _, ?_⟩
  intro i dep hget
  refine ⟨analyzeOne fetch dep, ?_, ?_⟩
  · show (analyzeLoop fetch (_extractDependencies packageJson)).get? i = _
    rw [analyzeLoop_get? fetch _ i, hget]
    rfl
  · unfold analyzeOne
    cases fetch dep.name with
    | none => rfl
    | some info => rfl

/-- Witness for C4: a manifest with one regular and one dev dependency, all
fetches failing. -/
theorem c4_witness :
    (analyzePackageJson (fun _ => none)
        ⟨some [("a", "1.0.0")], some [("b", "^2.0.0")], none⟩).totalPackages = 2
      ∧ ∃ entry : PackageAnalysis,
          (analyzePackageJson (fun _ => none)
              ⟨some [("a", "1.0.0")], some [("b", "^2.0.0")], none⟩).packages.get? 1
              = some entry
            ∧ entry.name = "b" :=
  ⟨(c4_total_count (fun _ => none)
      ⟨some [("a", "1.0.0")], some [("b", "^2.0.0")], none⟩).1,
   (c4_total_count (fun _ => none)
      ⟨some [("a", "1.0.0")], some [("b", "^2.0.0")], none⟩).2.2 1
      ⟨"b", "^2.0.0", DepType.devDependency⟩ rfl⟩

/-- The sum of the counts of a counter map. -/
def sumCounts (m : List (String × Nat)) : Nat :=
  (m.map Prod.snd).sum

theorem sumCounts_bump : ∀ (m : List (String × Nat)) (k : String),
    sumCounts (bump m k) = sumCounts m + 1 := by
  intro m
  induction m with
  | nil => intro k; rfl
  | cons e rest ih =>
    intro k
    obtain ⟨k', v⟩ := e
    by_cases h : k' = k
    · simp only [bump, if_pos h, sumCounts, List.map_cons, List.sum_cons]
      omega
    · simp only [bump, if_neg h, sumCounts, List.map_cons, List.sum_cons] at ih ⊢
      rw [ih k]
      omega

theorem sumCounts_foldl_bump (key : PackageAnalysis → String) :
    ∀ (pkgs : List PackageAnalysis) (init : List (String × Nat)),
      sumCounts (pkgs.foldl (fun m pkg => bump m (key pkg)) init)
        = sumCounts init + pkgs.length := by
  intro pkgs
  induction pkgs with
  | nil => intro init; rfl
  | cons pkg pkgs ih =>
    intro init
    simp only [List.foldl_cons, List.length_cons, ih (bump init (key pkg)),
      sumCounts_bump]
    omega

/-- C5: when every package has a non-empty license string, the counts of the
license histogram (including the "unknown" bucket, to which unset licenses
default) sum exactly to totalPackages. -/
theorem c5_histogram_sums_to_total (pkgs : List PackageAnalysis)
    (h : ∀ p ∈ pkgs, p.license ≠ "") :
    sumCounts (_generateReport pkgs).licenseDistribution
      = (_generateReport pkgs).totalPackages := by
  show sumCounts (licenseDistributionOf pkgs) = pkgs.length
  unfold licenseDistributionOf
  rw [sumCounts_foldl_bump (fun pkg => if pkg.license = "" then "unknown" else pkg.license)]
  simp [sumCounts]

/-- Witness for C5: two fetched-looking packages and one placeholder, all
with non-empty license strings. -/
theorem c5_witness :
    sumCounts (_generateReport
        [failedAnalysis ⟨"a", "1.0.0", DepType.dependency⟩,
         failedAnalysis ⟨"b", "2.0.0", DepType.devDependency⟩]).licenseDistribution
      = (_generateReport
        [failedAnalysis ⟨"a", "1.0.0", DepType.dependency⟩,
         failedAnalysis ⟨"b", "2.0.0", DepType.devDependency⟩]).totalPackages :=
  c5_histogram_sums_to_total
    [failedAnalysis ⟨"a", "1.0.0", DepType.dependency⟩,
     failedAnalysis ⟨"b", "2.0.0", DepType.devDependency⟩]
    (by decide)

theorem insertStable_perm {α : Type} (lt : α → α → Bool) (x : α) :
    ∀ l : List α, (insertStable lt x l).Perm (x :: l) := by
  intro l
  induction l with
  | nil => exact List.Perm.refl _
  | cons y ys ih =>
    simp only [insertStable]
    by_cases h : lt y x = true
    · rw [if_pos h]
      exact (List.Perm.cons y ih).trans (List.Perm.swap x y ys)
    · rw [if_neg h]

theorem sortStable_perm {α : Type} (lt : α → α → Bool) :
    ∀ l : List α, (sortStable lt l).Perm l := by
  intro l
  induction l with
  | nil => exact List.Perm.refl _
  | cons x xs ih =>
    exact (insertStable_perm lt x (sortStable lt xs)).trans (List.Perm.cons x ih)

theorem insertStable_pairwise {α : Type} (lt : α → α → Bool)
    (hasym : ∀ a b, lt a b = true → lt b a = false)
    (htrans : ∀ x y z, lt z y = false → lt z x = true → lt y x = true)
    (x : α) :
    ∀ l : List α, l.Pairwise (fun a b => lt b a = false) →
      (insertStable lt x l).Pairwise (fun a b => lt b a = false) := by
  intro l
  induction l with
  | nil =>
    intro _
    exact List.pairwise_singleton _ x
  | cons y ys ih =>
    intro h
    rw [List.pairwise_cons] at h
    obtain ⟨hy, hys⟩ := h
    simp only [insertStable]
    by_cases hyx : lt y x = true
    · rw [if_pos hyx, List.pairwise_cons]
      refine ⟨?_, ih hys⟩
      intro z hz
      rw [(insertStable_perm lt x ys).mem_iff] at hz
      rcases List.mem_cons.mp hz with rfl | hz2
      · exact hasym y z hyx
      · exact hy z hz2
    · rw [if_neg hyx, List.pairwise_cons]
      rw [Bool.not_eq_true] at hyx
      refine ⟨?_, List.pairwise_cons.mpr ⟨hy, hys⟩⟩
      intro z hz
      rcases List.mem_cons.mp hz with rfl | hz2
      · exact hyx
      · by_cases hzx : lt z x = true
        · rw [htrans x y z (hy z hz2) hzx] at hyx
          cases hyx
        · rwa [Bool.not_eq_true] at hzx

theorem sortStable_pairwise {α : Type} (lt : α → α → Bool)
    (hasym : ∀ a b, lt a b = true → lt b a = false)
    (htrans : ∀ x y z, lt z y = false → lt z x = true → lt y x = true) :
    ∀ l : List α, (sortStable lt l).Pairwise (fun a b => lt b a = false) := by
  intro l
  induction l with
  | nil => exact List.Pairwise.nil
  | cons x xs ih => exact insertStable_pairwise lt hasym htrans x (sortStable lt xs) ih

theorem insertStable_filter {α : Type} (lt : α → α → Bool) (p : α → Bool) (x : α)
    (hpx : ∀ y, lt y x = true → p x = true → p y = false) :
    ∀ l : List α, (insertStable lt x l).filter p
        = if p x then x :: l.filter p else l.filter p := by
  intro l
  induction l with
  | nil =>
    simp only [insertStable, List.filter]
    cases p x <;> rfl
  | cons y ys ih =>
    simp only [insertStable]
    by_cases hyx : lt y x = true
    · rw [if_pos hyx, List.filter_cons, ih]
      by_cases hp : p x = true
      · have hpy := hpx y hyx hp
        simp [hp, hpy, List.filter_cons]
      · rw [Bool.not_eq_true] at hp
        simp [hp, List.filter_cons]
    · rw [if_neg hyx]
      cases hp : p x <;> simp [hp, List.filter_cons]

theorem sortStable_filter {α : Type} (lt : α → α → Bool) (p : α → Bool)
    (hp : ∀ x y, lt y x = true → p x = true → p y = false) :
    ∀ l : List α, (sortStable lt l).filter p = l.filter p := by
  intro l
  induction l with
  | nil => rfl
  | cons x xs ih =>
    show (insertStable lt x (sortStable lt xs)).filter p = _
    rw [insertStable_filter lt p x (hp x), ih, List.filter_cons]

theorem bump_keys (P : String → Prop) :
    ∀ (m : List (String × Nat)) (k : String),
      (∀ e ∈ m, P e.1) → P k → ∀ e ∈ bump m k, P e.1 := by
  intro m
  induction m with
  | nil =>
    intro k _ hk e he
    rcases List.mem_singleton.mp he with rfl
    exact hk
  | cons e' rest ih =>
    intro k hm hk e he
    obtain ⟨k', v⟩ := e'
    by_cases h : k' = k
    · simp only [bump, if_pos h] at he
      rcases List.mem_cons.mp he with rfl | he2
      · exact hm (k', v) (List.mem_cons_self _ _)
      · exact hm _ (List.mem_cons_of_mem _ he2)
    · simp only [bump, if_neg h] at he
      rcases List.mem_cons.mp he with rfl | he2
      · exact hm (k', v) (List.mem_cons_self _ _)
      · exact ih k (fun e he => hm e (List.mem_cons_of_mem _ he)) hk e he2

theorem maintainerCountOf_keys (pkgs : List PackageAnalysis) :
    ∀ e ∈ maintainerCountOf pkgs, e.1 ≠ "unknown" := by
  have main : ∀ (ps : List PackageAnalysis) (init : List (String × Nat)),
      (∀ e ∈ init, e.1 ≠ "unknown") →
      ∀ e ∈ ps.foldl
          (fun m pkg =>
            if pkg.author ≠ "" ∧ pkg.author ≠ "unknown" then bump m pkg.author else m)
          init,
        e.1 ≠ "unknown" := by
    intro ps
    induction ps with
    | nil => intro init hinit; exact hinit
    | cons pkg ps ih =>
      intro init hinit
      simp only [List.foldl_cons]
      apply ih
      by_cases hc : pkg.author ≠ "" ∧ pkg.author ≠ "unknown"
      · rw [if_pos hc]
        exact bump_keys (fun a => a ≠ "unknown") init pkg.author hinit hc.2
      · rw [if_neg hc]
        exact hinit
  exact main pkgs [] (by intro e he; cases he)

/-- C6: the top-authors list has at most 10 entries, excludes every entry
whose author is "unknown", is sorted descending by package count, and breaks
ties by first-encountered order: for each count `c`, the tied entries appear
as a subsequence of the author-frequency map in key insertion order, which is
first-encountered order. -/
theorem c6_top_maintainers (pkgs : List PackageAnalysis) :
    (_generateReport pkgs).topMaintainers.length ≤ 10
      ∧ (∀ m ∈ (_generateReport pkgs).topMaintainers, m.name ≠ "unknown")
      ∧ (_generateReport pkgs).topMaintainers.Pairwise
          (fun a b => b.packages ≤ a.packages)
      ∧ ∀ c : Nat,
          ((topPairsOf pkgs).filter (fun e => e.2 == c)).Sublist
            ((maintainerCountOf pkgs).filter (fun e => e.2 == c)) := by
  have hasym : ∀ a b : String × Nat,
      countDescLt a b = true → countDescLt b a = false := by
    intro a b h
    simp only [countDescLt, decide_eq_true_eq] at h
    simp only [countDescLt, decide_eq_false_iff_not]
    omega
  have htrans : ∀ x y z : String × Nat,
      countDescLt z y = false → countDescLt z x = true → countDescLt y x = true := by
    intro x y z h1 h2
    simp only [countDescLt, decide_eq_false_iff_not, decide_eq_true_eq] at h1 h2 ⊢
    omega
  refine ⟨?_, ?_, ?_, ?_⟩
  · show ((topPairsOf pkgs).map _).length ≤ 10
    rw [List.length_map]
    exact List.length_take_le 10 _
  · intro m hm
    rw [show (_generateReport pkgs).topMaintainers
        = (topPairsOf pkgs).map (fun e => TopMaintainer.mk e.1 e.2) from rfl] at hm
    rw [List.mem_map] at hm
    obtain ⟨e, he, rfl⟩ := hm
    have he2 : e ∈ sortStable countDescLt (maintainerCountOf pkgs) :=
      (List.take_sublist 10 _).subset he
    have he3 : e ∈ maintainerCountOf pkgs :=
      (sortStable_perm countDescLt _).mem_iff.mp he2
    exact maintainerCountOf_keys pkgs e he3
  · show ((topPairsOf pkgs).map (fun e => TopMaintainer.mk e.1 e.2)).Pairwise _
    rw [List.pairwise_map]
    have hsorted := sortStable_pairwise countDescLt hasym htrans (maintainerCountOf pkgs)
    have htake := hsorted.sublist (List.take_sublist 10 _)
    refine htake.imp ?_
    intro a b h
    simp only [countDescLt, decide_eq_false_iff_not] at h
    exact Nat.le_of_not_lt h
  · intro c
    have hp : ∀ x y : String × Nat,
        countDescLt y x = true → (x.2 == c) = true → (y.2 == c) = false := by
      intro x y hlt hx
      simp only [countDescLt, decide_eq_true_eq] at hlt
      rw [beq_iff_eq] at hx
      rw [beq_eq_false_iff_ne]
      omega
    have hfil := sortStable_filter countDescLt (fun e => e.2 == c) hp (maintainerCountOf pkgs)
    have h1 := (List.take_sublist 10
        (sortStable countDescLt (maintainerCountOf pkgs))).filter (fun e => e.2 == c)
    rw [hfil] at h1
    exact h1

/-- A concrete analysis entry used in witnesses. -/
def samplePkg (name license author : String) (isOutdated : Bool) : PackageAnalysis :=
  { name := name
    installedVersion := "1.0.0"
    latestVersion := "2.0.0"
    description := ""
    license := license
    author := author
    homepage := ""
    repository := ""
    keywords := []
    maintainers := 0
    created := ""
    lastModified := ""
    isOutdated := isOutdated
    securityIssues := none
    dependencyType := DepType.dependency }

/-- The package list used by the C6 witness: two packages by "alice", one by
"bob", one with author "unknown". -/
def c6Pkgs : List PackageAnalysis :=
  [samplePkg "p1" "MIT" "alice" false,
   samplePkg "p2" "MIT" "bob" true,
   samplePkg "p3" "MIT" "alice" false,
   samplePkg "p4" "ISC" "unknown" false]

/-- Witness for C6 at a concrete package list. -/
theorem c6_witness :
    (_generateReport c6Pkgs).topMaintainers.length ≤ 10
      ∧ (TopMaintainer.mk "alice" 2).name ≠ "unknown"
      ∧ ((topPairsOf c6Pkgs).filter (fun e => e.2 == 1)).Sublist
          ((maintainerCountOf c6Pkgs).filter (fun e => e.2 == 1)) :=
  ⟨(c6_top_maintainers c6Pkgs).1,
   (c6_top_maintainers c6Pkgs).2.1 (TopMaintainer.mk "alice" 2) (by decide),
   (c6_top_maintainers c6Pkgs).2.2.2 1⟩

/-- A JS number as the renderer uses one: a finite rational, a signed
infinity, or NaN. -/
inductive JsNum where
  | nan : JsNum
  | inf : Bool → JsNum
  | num : ℚ → JsNum
deriving DecidableEq

/-- JS division `a / b` of two nonnegative counts: `0 / 0` is NaN, `a / 0`
with `a > 0` is +Infinity, otherwise the exact quotient. -/
def jsDivNat (a b : Nat) : JsNum :=
  if b = 0 then (if a = 0 then JsNum.nan else JsNum.inf true)
  else JsNum.num ((a : ℚ) / (b : ℚ))

/-- Multiplication by the positive literal 100: NaN stays NaN, an infinity
keeps its sign. -/
def jsMul100 : JsNum → JsNum
  | JsNum.nan => JsNum.nan
  | JsNum.inf s => JsNum.inf s
  | JsNum.num q => JsNum.num (q * 100)

/-- `Number.prototype.toFixed(1)`: NaN renders "NaN", infinities render
"Infinity"/"-Infinity"; a finite value is rounded to the nearest tenth (ties
toward the larger value, `Rat.floor (10q + 1/2)`) and rendered with one
decimal digit.  The sign of a JS negative zero is not modelled; the renderer
only ever formats nonnegative counts. -/
def toFixed1 (x : JsNum) : String :=
  match x with
  | JsNum.nan => "NaN"
  | JsNum.inf true => "Infinity"
  | JsNum.inf false => "-Infinity"
  | JsNum.num q =>
    let n : Int := Rat.floor (q * 10 + 1 / 2)
    let sign := if n < 0 then "-" else ""
    sign ++ toString (n.natAbs / 10) ++ "." ++ toString (n.natAbs % 10)

/-- The summary percentage of `generateReportFile` (line 307):
`((report.outdatedPackages / report.totalPackages) * 100).toFixed(1)`. -/
def summaryPctString (report : AnalysisReport) : String :=
  toFixed1 (jsMul100 (jsDivNat report.outdatedPackages report.totalPackages))

/-- The outdated-packages summary line (line 307). -/
def summaryLine (report : AnalysisReport) : String :=
  "- **Outdated Packages**: " ++ toString report.outdatedPackages ++ " ("
    ++ summaryPctString report ++ "%)\n\n"

/-- One license-distribution line (lines 311–316); the percentage is
`(count / report.totalPackages) * 100` to one decimal. -/
def licenseLine (report : AnalysisReport) (e : String × Nat) : String :=
  "- **" ++ e.1 ++ "**: " ++ toString e.2 ++ " packages ("
    ++ toFixed1 (jsMul100 (jsDivNat e.2 report.totalPackages)) ++ "%)\n"

/-- The license-distribution section body: entries sorted descending by
count (stable JS sort), one line each. -/
def licenseLinesOf (report : AnalysisReport) : String :=
  ((sortStable countDescLt report.licenseDistribution).map (licenseLine report)).foldl
    (fun acc s => acc ++ s) ""

/-- One top-maintainers line (lines 321–323). -/
def maintainerLine (m : TopMaintainer) : String :=
  "- **" ++ m.name ++ "**: " ++ toString m.packages ++ " packages\n"

/-- The `dependencyType` string as it appears in the report tables. -/
def depTypeString : DepType → String
  | DepType.dependency => "dependency"
  | DepType.devDependency => "devDependency"
  | DepType.peerDependency => "peerDependency"

/-- `const outdatedPkgs = report.packages.filter((p) => p.isOutdated)`
(line 327): computed from `report.packages` before the in-place sort, so in
manifest insertion order. -/
def outdatedPkgsOf (report : AnalysisReport) : List PackageAnalysis :=
  report.packages.filter (fun p => p.isOutdated)

/-- One row of the outdated-packages table (lines 333–335). -/
def outdatedRow (pkg : PackageAnalysis) : String :=
  "| " ++ pkg.name ++ " | " ++ pkg.installedVersion ++ " | " ++ pkg.latestVersion
    ++ " | " ++ depTypeString pkg.dependencyType ++ " |\n"

/-- The rows of the outdated-packages table, in the pre-sort insertion
order. -/
def outdatedRowsOf (report : AnalysisReport) : List String :=
  (outdatedPkgsOf report).map outdatedRow

/-- Strict character-list comparison in code-point order (lexicographic). -/
def charListLt : List Char → List Char → Bool
  | [], [] => false
  | [], _ :: _ => true
  | _ :: _, [] => false
  | a :: xs, b :: ys =>
    if a < b then true else if b < a then false else charListLt xs ys

/-- The comparator `(a, b) => a.name.localeCompare(b.name)` (line 344),
with `localeCompare` modelled as code-point order on the names. -/
def nameLt (a b : PackageAnalysis) : Bool :=
  charListLt a.name.data b.name.data

/-- One row of the all-packages table (lines 345–349): the author is
truncated to 20 characters with an ellipsis (JS counts UTF-16 units; the
model counts characters). -/
def allRow (pkg : PackageAnalysis) : String :=
  let outdatedIcon := if pkg.isOutdated then "⚠️" else "✅"
  let author :=
    if pkg.author.length > 20 then pkg.author.take 20 ++ "..." else pkg.author
  "| " ++ pkg.name ++ " | " ++ pkg.installedVersion ++ " | " ++ pkg.latestVersion
    ++ " | " ++ pkg.license ++ " | " ++ author ++ " | " ++ outdatedIcon ++ " |\n"

/-- The rows of the all-packages table: `report.packages` after the in-place
`sort` by name (line 344), i.e. in sorted order. -/
def allRowsOf (report : AnalysisReport) : List String :=
  (sortStable nameLt report.packages).map allRow

/-- The result of `generateReportFile`: the markdown content written to the
output file, and the report as it is left after the call — JS
`Array.prototype.sort` sorted `report.packages` in place. -/
structure RenderResult where
  content : String
  reportAfter : AnalysisReport
deriving DecidableEq

/-- `generateReportFile` (lines 298–353): header with timestamp (passed in as
`now`), summary, license distribution, top authors (only if non-empty),
outdated-packages table (only if non-empty, from the pre-sort list), and the
all-packages table over `report.packages` sorted in place by name.  The
`fs.writeFileSync` side effect is represented by returning the content. -/
def generateReportFile (report : AnalysisReport) (now : String) : RenderResult :=
  let header := "# Package Dependency Analysis Report\n\n"
    ++ "Generated on: " ++ now ++ "\n\n"
  let summary := "## Summary\n\n"
    ++ "- **Total Packages**: " ++ toString report.totalPackages ++ "\n"
    ++ summaryLine report
  let licenseSection := "## License Distribution\n\n" ++ licenseLinesOf report
  let maintainerSection :=
    if report.topMaintainers.length > 0 then
      "\n## Top Package Authors\n\n"
        ++ (report.topMaintainers.map maintainerLine).foldl (fun acc s => acc ++ s) ""
    else ""
  let outdatedSection :=
    if (outdatedPkgsOf report).length > 0 then
      "\n## Outdated Packages\n\n"
        ++ "| Package | Installed | Latest | Type |\n"
        ++ "|---------|-----------|--------|----- |\n"
        ++ (outdatedRowsOf report).foldl (fun acc s => acc ++ s) ""
    else ""
  let allSection := "\n## All Packages\n\n"
    ++ "| Package | Version | Latest | License | Author | Outdated |\n"
    ++ "|---------|---------|--------|---------|---------|---------|\n"
    ++ (allRowsOf report).foldl (fun acc s => acc ++ s) ""
  { content := header ++ summary ++ licenseSection ++ maintainerSection
      ++ outdatedSection ++ allSection
    reportAfter := { report with packages := sortStable nameLt report.packages } }

/-- C9: on the report generated from an empty package list, totalPackages
is 0; the license histogram is then empty (so the summary percentage is the
only division), that division `0 / 0` is NaN — unguarded, not an error — and
the rendered summary line reads "... (NaN%)". -/
theorem c9_empty_report_nan_percent :
    (_generateReport []).totalPackages = 0
      ∧ (_generateReport []).licenseDistribution = []
      ∧ jsDivNat (_generateReport []).outdatedPackages (_generateReport []).totalPackages
          = JsNum.nan
      ∧ summaryLine (_generateReport []) = "- **Outdated Packages**: 0 (NaN%)\n\n" := by
  refine ⟨rfl, rfl, rfl, ?_⟩
  decide

theorem charListLt_iff_lex : ∀ xs ys : List Char,
    charListLt xs ys = true ↔ List.Lex (· < ·) xs ys := by
  intro xs
  induction xs with
  | nil =>
    intro ys
    cases ys with
    | nil =>
      simp only [charListLt]
      constructor
      · intro h; cases h
      · intro h; cases h
    | cons b bs =>
      simp only [charListLt]
      constructor
      · intro _; exact List.Lex.nil
      · intro _; trivial
  | cons a xs ih =>
    intro ys
    cases ys with
    | nil =>
      simp only [charListLt]
      constructor
      · intro h; cases h
      · intro h; cases h
    | cons b bs =>
      simp only [charListLt]
      by_cases hab : a < b
      · rw [if_pos hab]
        constructor
        · intro _; exact List.Lex.rel hab
        · intro _; trivial
      · rw [if_neg hab]
        by_cases hba : b < a
        · rw [if_pos hba]
          constructor
          · intro h; cases h
          · intro h
            cases h with
            | cons h2 => exact absurd hba (lt_irrefl _)
            | rel h2 => exact absurd h2 hab
        · rw [if_neg hba]
          have hab2 : a = b := le_antisymm (le_of_not_lt hba) (le_of_not_lt hab)
          subst hab2
          rw [ih bs]
          constructor
          · intro h; exact List.Lex.cons h
          · intro h
            cases h with
            | cons h2 => exact h2
            | rel h2 => exact absurd h2 (lt_irrefl a)

theorem nameLt_true_iff (a b : PackageAnalysis) :
    nameLt a b = true ↔ a.name < b.name := by
  rw [String.lt_iff_toList_lt]
  exact charListLt_iff_lex a.name.data b.name.data

/-- C10: `generateReportFile` mutates the report it is given — afterwards
`report.packages` is the stable sort of the original list by name
(a permutation, sorted alphabetically, so in general no longer in manifest
insertion order), while the outdated-packages table, computed before that
sort, lists the outdated packages as a subsequence of the original
insertion-order list, and the all-packages table follows the sorted
post-mutation order. -/
theorem c10_render_sorts_packages_in_place (report : AnalysisReport) (now : String) :
    (generateReportFile report now).reportAfter.packages
        = sortStable nameLt report.packages
      ∧ ((generateReportFile report now).reportAfter.packages).Perm report.packages
      ∧ ((generateReportFile report now).reportAfter.packages).Pairwise
          (fun a b => ¬ b.name < a.name)
      ∧ outdatedRowsOf report
          = (report.packages.filter (fun p => p.isOutdated)).map outdatedRow
      ∧ (outdatedPkgsOf report).Sublist report.packages
      ∧ allRowsOf report
          = ((generateReportFile report now).reportAfter.packages).map allRow := by
  have hasym : ∀ a b : PackageAnalysis, nameLt a b = true → nameLt b a = false := by
    intro a b h
    rw [nameLt_true_iff] at h
    rw [← Bool.not_eq_true, nameLt_true_iff]
    exact lt_asymm h
  have htrans : ∀ x y z : PackageAnalysis,
      nameLt z y = false → nameLt z x = true → nameLt y x = true := by
    intro x y z h1 h2
    rw [← Bool.not_eq_true, nameLt_true_iff] at h1
    rw [nameLt_true_iff] at h2 ⊢
    exact lt_of_le_of_lt (le_of_not_lt h1) h2
  refine ⟨rfl, ?_, ?_, rfl, ?_, rfl⟩
  · exact sortStable_perm nameLt report.packages
  · have hsorted := sortStable_pairwise nameLt hasym htrans report.packages
    refine hsorted.imp ?_
    intro a b h
    rw [← Bool.not_eq_true, nameLt_true_iff] at h
    exact h
  · exact List.filter_sublist report.packages

/-- The report used by the C10 witness: two packages, deliberately not in
alphabetical order, the first one outdated. -/
def c10Report : AnalysisReport :=
  _generateReport
    [samplePkg "zlib" "MIT" "alice" true, samplePkg "aaa" "MIT" "bob" false]

/-- Witness for C10: after the call the package list is sorted and differs
from the original insertion order, while the outdated table row comes from
the original order. -/
theorem c10_witness :
    (generateReportFile c10Report "2020-01-01T00:00:00.000Z").reportAfter.packages
        = sortStable nameLt c10Report.packages
      ∧ (generateReportFile c10Report "2020-01-01T00:00:00.000Z").reportAfter.packages
          ≠ c10Report.packages
      ∧ outdatedRowsOf c10Report = [outdatedRow (samplePkg "zlib" "MIT" "alice" true)] :=
  ⟨(c10_render_sorts_packages_in_place c10Report "2020-01-01T00:00:00.000Z").1,
   by decide, by decide⟩

end Licenses
